import Mathlib

/-!
Verification development for the expenseBot repository: a shallow embedding of
the entry-classification and ledger-write pipeline (entry parsing, category
resolution, sheet provisioning, row update, month aggregation and comparison,
relative-month resolution), with theorems settling the specification claims.

Conventions of the embedding:
* Python `float` values are modelled as exact rationals (`ℚ`); `float(...)`
  parsing is modelled for the decimal-literal syntax (sign, digits, decimal
  point, exponent), omitting `inf`/`nan`/underscore separators, which never
  occur in the inputs the claims range over.
* Python `dict` values (insertion-ordered, unique keys) are modelled as
  association lists; `d[k] = v` updates the first binding in place or appends.
* Spreadsheet-backend calls are modelled by their effect on an explicit state
  (a list of titled sheets holding rows of cells); a failing backend read is an
  `Except.error`.
-/

namespace ExpenseBot

/-! ## Python string primitives -/

/-- One cell of a spreadsheet row: the backend stores either a string or a
numeric value (Python writes floats, modelled as `ℚ`). -/
inductive Cell where
  | str (s : String)
  | num (q : ℚ)
deriving DecidableEq, Repr

/-- Accumulator worker for `pySplit`. -/
def pySplitAux : List Char → List Char → List (List Char)
  | [], acc => if acc = [] then [] else [acc.reverse]
  | c :: cs, acc =>
    if c.isWhitespace then
      (if acc = [] then pySplitAux cs [] else acc.reverse :: pySplitAux cs [])
    else pySplitAux cs (c :: acc)

/-- Python `str.split()` with no arguments: split on runs of whitespace,
discarding empty tokens (source: `text.split()` in `handle_expense`). -/
def pySplit (s : String) : List String :=
  (pySplitAux s.toList []).map List.asString

/-- Strip leading and trailing whitespace from a character list
(Python `str.strip()` with no arguments). -/
def trimWs (cs : List Char) : List Char :=
  ((cs.dropWhile Char.isWhitespace).reverse.dropWhile Char.isWhitespace).reverse

/-- Decimal digits to a natural number. -/
def digitsToNat (cs : List Char) : ℕ :=
  cs.foldl (fun n c => 10 * n + (c.toNat - 48)) 0

/-- Parse an optional exponent suffix of a Python float literal and apply it
to the already-parsed mantissa. -/
def parseExpPart (mant : ℚ) : List Char → Option ℚ
  | [] => some mant
  | c :: rest =>
    if c = 'e' ∨ c = 'E' then
      let signAndDigits : Bool × List Char :=
        match rest with
        | '+' :: r => (false, r)
        | '-' :: r => (true, r)
        | r => (false, r)
      let digs := signAndDigits.2.takeWhile Char.isDigit
      let rest2 := signAndDigits.2.dropWhile Char.isDigit
      if digs = [] ∨ rest2 ≠ [] then none
      else if signAndDigits.1 then some (mant / 10 ^ digitsToNat digs)
      else some (mant * 10 ^ digitsToNat digs)
    else none

/-- Parse an unsigned Python float literal: digits with an optional decimal
point (at least one digit overall) and an optional exponent. -/
def pyFloatUnsigned (cs : List Char) : Option ℚ :=
  let ip := cs.takeWhile Char.isDigit
  let r1 := cs.dropWhile Char.isDigit
  match r1 with
  | '.' :: r2 =>
    let fp := r2.takeWhile Char.isDigit
    let r3 := r2.dropWhile Char.isDigit
    if ip = [] ∧ fp = [] then none
    else parseExpPart ((digitsToNat (ip ++ fp) : ℚ) / 10 ^ fp.length) r3
  | _ => if ip = [] then none else parseExpPart (digitsToNat ip : ℚ) r1

/-- Python `float(s)` on a string, modelled for decimal-literal syntax:
leading/trailing whitespace is stripped, an optional sign is read, and the
remainder must be a decimal literal.  `none` models the `ValueError` raised on
failure; the successful value is the exact rational denoted. -/
def pyFloat (s : String) : Option ℚ :=
  match trimWs s.toList with
  | '+' :: cs => pyFloatUnsigned cs
  | '-' :: cs => (pyFloatUnsigned cs).map (fun q => -q)
  | cs => pyFloatUnsigned cs

/-- Character-list prefix test (Boolean). -/
def startsWithChars : List Char → List Char → Bool
  | [], _ => true
  | _ :: _, [] => false
  | a :: as, b :: bs => a == b && startsWithChars as bs

/-- Character-list contiguous-substring test (Boolean): Python `k in d` on
strings.  The empty string is a substring of everything, as in Python. -/
def containsChars (k : List Char) : List Char → Bool
  | [] => startsWithChars k []
  | c :: ds => startsWithChars k (c :: ds) || containsChars k ds

/-- Python substring test `k in d` on strings. -/
def isSub (k d : String) : Bool :=
  containsChars k.toList d.toList

/-- Python `str.lower()` (per-character lowering; the repository's data is
ASCII). -/
def pyLower (s : String) : String :=
  (s.toList.map Char.toLower).asString

/-! ## Python dict model

Python dicts iterate in insertion order and have unique keys.  They are
modelled as association lists; `d[k] = v` updates the first binding for `k` in
place, or appends a new binding at the end. -/

/-- Python `d[k] = v` on a dict modelled as an association list. -/
def dictSet : List (String × String) → String → String → List (String × String)
  | [], k, v => [(k, v)]
  | (k', v') :: rest, k, v =>
    if k' == k then (k, v) :: rest else (k', v') :: dictSet rest k v

/-! ## CategoryResolver (`src/services/category_service.py`, `src/bot.py`) -/

/-- `CategoryService.get_category` / `ExpenseBot._get_category`: lower-case the
description; return the exact dict match if present, otherwise the category of
the first key (in insertion order) that occurs as a substring of the
description, otherwise `none` (Python `None`).  In a Python dict keys are
unique, so returning the found binding's own value coincides with the source's
`self.categories[key]`. -/
def get_category (cats : List (String × String)) (description : String) : Option String :=
  let d := (pyLower description)
  match List.lookup d cats with
  | some c => some c
  | none => (cats.find? (fun kv => isSub kv.1 d)).map Prod.snd

/-- Build the category dict from the rows read out of `Master!A2:B`, as the
loop shared by both `_load_categories` implementations does: a row of exactly
two cells is inserted (key lower-cased); a row of fewer than two cells is
skipped; a row of more than two cells makes the tuple unpacking
`expense, category = row` raise `ValueError`, modelled as `Except.error`. -/
def buildCategories (rows : List (List String)) : Except String (List (String × String)) :=
  rows.foldlM
    (fun cats row =>
      match row with
      | [e, c] => Except.ok (dictSet cats (pyLower e) c)
      | _ =>
        if 2 ≤ row.length then Except.error "too many values to unpack"
        else Except.ok cats)
    []

/-- `CategoryService._load_categories`: the whole body is wrapped in
`try/except Exception`; any failure (backend read error or unpack error) is
caught and an empty dict is returned.  The argument is the result of the
backend read of `Master!A2:B`. -/
def loadCategoriesService (readResult : Except String (List (List String))) :
    List (String × String) :=
  match readResult.bind buildCategories with
  | Except.ok cats => cats
  | Except.error _ => []

/-- `ExpenseBot._load_categories` (`src/bot.py`): the `except` block ends in
`raise`, so any failure propagates out of the constructor. -/
def loadCategoriesBot (readResult : Except String (List (List String))) :
    Except String (List (String × String)) :=
  readResult.bind buildCategories

/-- State owned by `CategoryService`: the persisted `Master` table rows and the
in-memory dict cache. -/
structure CatState where
  persisted : List (List String)
  cache : List (String × String)
deriving DecidableEq, Repr

/-- `CategoryService.add_category_mapping`: append `[description.lower(),
category]` to the persisted `Master!A:B` table, then mirror the same binding
into the in-memory cache in the same operation. -/
def add_category_mapping (st : CatState) (description category : String) : CatState :=
  { persisted := st.persisted ++ [[(pyLower description), category]]
    cache := dictSet st.cache (pyLower description) category }

/-! ## EntryParser (`src/commands/expense.py` `handle_expense`) -/

/-- The two Python exception classes the parsing steps can raise:
`ValueError` from `float(parts[0])` and `IndexError` from `parts[0]` /
`parts[1]` on a too-short token list. -/
inductive FormatErr where
  | valueError
  | indexError
deriving DecidableEq, Repr

/-- The inline parsing steps of `handle_expense`:
`parts = text.split()`, `amount = float(parts[0])`,
`description = parts[1]`,
`details = ' '.join(parts[2:]) if len(parts) > 2 else ""`. -/
def parseEntry (text : String) : Except FormatErr (ℚ × String × String) :=
  match pySplit text with
  | [] => Except.error FormatErr.indexError
  | tok0 :: restParts =>
    match pyFloat tok0 with
    | none => Except.error FormatErr.valueError
    | some amount =>
      match restParts with
      | [] => Except.error FormatErr.indexError
      | description :: rest =>
        -- `len(parts) > 2` is `rest ≠ []`
        Except.ok (amount, description,
          if 0 < rest.length then String.intercalate " " rest else "")

/-- Observable outcome of one `handle_expense` invocation. -/
inductive ExpenseResult where
  | invalidAmount
  | genericError
  | prompt (description : String) (amount : ℚ)
  | added (row : List Cell)
deriving DecidableEq, Repr

/-- `ExpenseCommands.handle_expense` (identical parsing and dispatch in
`ExpenseBot.handle_expense`): parse the message; `ValueError` is answered with
the invalid-amount message, any other exception with the generic error
message; an unresolved category produces the category-selection prompt; a
resolved category appends the row
`[date, amount, description, category, user, details]` to the current month's
sheet.  `date` and `user` stand for `datetime.now()`-derived and
`update.effective_user`-derived values the caller supplies. -/
def handleExpense (cats : List (String × String)) (date user text : String) :
    ExpenseResult :=
  match parseEntry text with
  | Except.error FormatErr.valueError => ExpenseResult.invalidAmount
  | Except.error FormatErr.indexError => ExpenseResult.genericError
  | Except.ok (amount, description, details) =>
    match get_category cats (pyLower description) with
    | none => ExpenseResult.prompt description amount
    | some category =>
      ExpenseResult.added
        [Cell.str date, Cell.num amount, Cell.str description,
         Cell.str category, Cell.str user, Cell.str details]

/-- The rows a `handle_expense` outcome appends to the ledger: exactly one for
the success path, none otherwise. -/
def writesOf : ExpenseResult → List (List Cell)
  | ExpenseResult.added row => [row]
  | _ => []

/-! ## Spec-side parser (for the refinement comparison of claim C1)

The following definitions follow the specification's words, not the source:
split the message into the first whitespace token and the rest with a single
maxsplit; if the rest contains a comma, the trimmed text before the first comma
is the description and the text after it the details, otherwise the whole
trimmed rest is the description and the details are empty. -/

/-- Modelled from the spec: Python-style `text.split(maxsplit=1)`, returning
the first whitespace-delimited token and the remainder with the separating
whitespace removed. -/
def specSplitAmountRest (text : String) : Option (String × String) :=
  match text.toList.dropWhile Char.isWhitespace with
  | [] => none
  | c :: cs =>
    let tok := (c :: cs).takeWhile (fun ch => !ch.isWhitespace)
    let rest := ((c :: cs).dropWhile (fun ch => !ch.isWhitespace)).dropWhile Char.isWhitespace
    some (tok.asString, rest.asString)

/-- Modelled from the spec: the `EntryParser` contract of §4.2 — amount from
the first token, description the trimmed rest up to the first comma (the whole
trimmed rest when there is no comma), details the text after the first comma
(empty when there is no comma). -/
def specEntryParse (text : String) : Option (ℚ × String × String) :=
  match specSplitAmountRest text with
  | none => none
  | some (tok, rest) =>
    match pyFloat tok with
    | none => none
    | some amount =>
      let cs := rest.toList
      if cs.contains ',' then
        some (amount, (trimWs (cs.takeWhile (fun ch => ch != ','))).asString,
          ((cs.dropWhile (fun ch => ch != ',')).drop 1).asString)
      else
        some (amount, (trimWs cs).asString, "")

/-- Claim-side predicate of C2: the token parses as a non-negative decimal
number. -/
def nonNegDecimal (tok : String) : Bool :=
  match pyFloat tok with
  | some q => decide (0 ≤ q)
  | none => false

/-! ## LedgerWriter sheet provisioning (`src/bot.py`) -/

/-- One sheet of the backing spreadsheet: a title and its grid of rows. -/
structure GSheet where
  title : String
  rows : List (List Cell)
deriving DecidableEq, Repr

/-- Existence check of `_ensure_monthly_sheet_exists` /
`_ensure_investment_sheets_exist`: scan the listed sheets for one whose title
matches. -/
def sheetExists (sheets : List GSheet) (t : String) : Bool :=
  sheets.any (fun s => s.title == t)

/-- Backend `addSheet` batch request: a new, empty sheet is appended. -/
def addSheet (sheets : List GSheet) (t : String) : List GSheet :=
  sheets ++ [{ title := t, rows := [] }]

/-- Backend `values().update` on a one-row range of the sheet with the given
title, in the accepted case of values that do not exceed the range: overwrite
the first row with the header (creating the row on an empty grid). -/
def writeHeaderRow (sheets : List GSheet) (t : String) (hdr : List Cell) :
    List GSheet :=
  sheets.map (fun s =>
    if s.title == t then
      { s with rows := match s.rows with
          | [] => [hdr]
          | _ :: rest => hdr :: rest }
    else s)

/-- Header row written on creation of a monthly expense sheet. -/
def monthlyHeaders : List Cell :=
  [Cell.str "Date", Cell.str "Amount", Cell.str "Description",
   Cell.str "Category", Cell.str "User", Cell.str "Details"]

/-- Header row written on creation of a yearly investment overview sheet. -/
def investmentHeaders : List Cell :=
  [Cell.str "Date", Cell.str "Amount", Cell.str "Category", Cell.str "User",
   Cell.str "Description", Cell.str "Returns", Cell.str "Return Date"]

/-- Common shape of the two sheet-provisioning routines: list the sheets by
title; when absent, create the sheet with the backend `addSheet` request and
then write the header row with a `values().update` call on a one-row range of
`rangeWidth` columns.  The Sheets API rejects an update whose values exceed
the requested range, and the routines' `except` blocks end in `raise`, so the
result records the spreadsheet state after the backend calls that executed
together with whether the routine returned normally or re-raised. -/
def ensureSheetWithHeader (sheets : List GSheet) (t : String) (rangeWidth : ℕ)
    (hdr : List Cell) : List GSheet × Except String Unit :=
  if sheetExists sheets t then (sheets, Except.ok ())
  else
    let created := addSheet sheets t
    if rangeWidth < hdr.length then (created, Except.error "exceeds the range")
    else (writeHeaderRow created t hdr, Except.ok ())

/-- `ExpenseBot._ensure_monthly_sheet_exists`, parameterised by the
`datetime.now().strftime('%Y-%m')` period key the source computes.  The header
update targets the range `A1:E1` — five columns — with the six monthly header
values. -/
def ensureMonthlySheetExists (sheets : List GSheet) (currentMonth : String) :
    List GSheet × Except String Unit :=
  ensureSheetWithHeader sheets currentMonth 5 monthlyHeaders

/-- `ExpenseBot._ensure_investment_sheets_exist`, parameterised by the current
year; the period key is `f"{current_year} Overview"` and the header update
targets `A1:G1` — seven columns — with the seven investment header values. -/
def ensureInvestmentSheetsExist (sheets : List GSheet) (currentYear : ℕ) :
    List GSheet × Except String Unit :=
  ensureSheetWithHeader sheets (toString currentYear ++ " Overview") 7
    investmentHeaders

/-- Number of sheets carrying a given title. -/
def countTitled (sheets : List GSheet) (t : String) : ℕ :=
  (sheets.filter (fun s => s.title == t)).length

/-! ## Row update (`src/services/sheets.py` `update_expense`) -/

/-- Positional read of a list (the `n`-th cell of a row, or row of a grid). -/
def nth? {α : Type} : List α → ℕ → Option α
  | [], _ => none
  | x :: _, 0 => some x
  | _ :: xs, n + 1 => nth? xs n

/-- Positional write to a list; out-of-range writes leave it unchanged. -/
def setN {α : Type} : List α → ℕ → α → List α
  | [], _, _ => []
  | _ :: xs, 0, v => v :: xs
  | x :: xs, n + 1, v => x :: setN xs n v

/-- Cell at row `i`, column `j` of a sheet grid (0-based). -/
def cellAt (sheet : List (List Cell)) (i j : ℕ) : Option Cell :=
  (nth? sheet i).bind (fun r => nth? r j)

/-- Effect of the `values().update` call of `update_expense` on one row: the
range `B…:D…` covers exactly the columns at indices 1, 2, 3 (amount,
description, category) and receives `[[amount, description, category]]`. -/
def writeBCD (r : List Cell) (amount : ℚ) (description category : String) :
    List Cell :=
  setN (setN (setN r 1 (Cell.num amount)) 2 (Cell.str description)) 3
    (Cell.str category)

/-- `SheetService.update_expense`: overwrite the range `B{row+1}:D{row+1}` of
the current month's sheet with the new amount, description and category.  The
spreadsheet row number `row+1` is index `row` of the grid. -/
def update_expense (sheet : List (List Cell)) (row : ℕ) (amount : ℚ)
    (description category : String) : List (List Cell) :=
  setN sheet row (writeBCD ((nth? sheet row).getD []) amount description category)

/-! ## Relative month resolution (`src/bot.py` `_get_relative_month`) -/

/-- A Python `datetime` date, to the precision the embedded code observes. -/
structure Date where
  year : ℕ
  month : ℕ
  day : ℕ
deriving DecidableEq, Repr

/-- Gregorian leap-year rule, as implemented by Python's `datetime`. -/
def isLeap (y : ℕ) : Bool :=
  y % 4 == 0 && (y % 100 != 0 || y % 400 == 0)

/-- Number of days of a month. -/
def daysInMonth (y m : ℕ) : ℕ :=
  if m = 2 then (if isLeap y then 29 else 28)
  else if m = 4 ∨ m = 6 ∨ m = 9 ∨ m = 11 then 30
  else 31

/-- `d.replace(day=1) - timedelta(days=1)`: the last day of the previous
month. -/
def prevMonthLastDay (d : Date) : Date :=
  if d.month = 1 then { year := d.year - 1, month := 12, day := 31 }
  else { year := d.year, month := d.month - 1,
         day := daysInMonth d.year (d.month - 1) }

/-- Zero-padded two-digit rendering of a month number. -/
def pad2 (n : ℕ) : String :=
  if n < 10 then "0" ++ toString n else toString n

/-- `strftime('%Y-%m')` of a date (years of four or more digits). -/
def fmtYM (d : Date) : String :=
  toString d.year ++ "-" ++ pad2 d.month

/-- `ExpenseBot._get_relative_month`: step once to the last day of the
previous month, then `months_back - 1` further times (Python `range` of a
negative count is empty, matched by truncated `ℕ` subtraction), and format the
result as `YYYY-MM`. -/
def getRelativeMonth (now : Date) (monthsBack : ℕ) : String :=
  fmtYM (prevMonthLastDay^[monthsBack - 1] (prevMonthLastDay now))

/-! ## Month aggregation and comparison (`src/bot.py`) -/

/-- Result of `_get_month_data`: the month's total and the per-user dict. -/
structure MonthData where
  total : ℚ
  users : List (String × ℚ)
deriving DecidableEq, Repr

/-- Python `users[user] = users.get(user, 0) + amount`: add to the existing
binding (dict keys are unique, so the first binding is the binding), or insert
a new one at the end. -/
def bump : List (String × ℚ) → String → ℚ → List (String × ℚ)
  | [], u, a => [(u, a)]
  | (k, v) :: rest, u, a =>
    if k == u then (k, v + a) :: rest else (k, v) :: bump rest u a

/-- Loop body of `_get_month_data`: a row shorter than two cells is skipped; a
row whose amount cell fails `float` parsing is skipped (the `ValueError` is
caught and the loop continues); otherwise the amount is added to the total and
to the bucket of `row[4]` (or `"Unknown"` when the user column is missing). -/
def processRow (md : MonthData) (row : List String) : MonthData :=
  if 2 ≤ row.length then
    match pyFloat (row.getD 1 "") with
    | some a =>
      { total := md.total + a
        users := bump md.users (if 4 < row.length then row.getD 4 "" else "Unknown") a }
    | none => md
  else md

/-- `ExpenseBot._get_month_data`, as a function of the cell values read from
the month's sheet: an empty or header-only range yields zero totals; otherwise
the rows after the header are folded through `processRow`. -/
def getMonthData (values : List (List String)) : MonthData :=
  if values.length ≤ 1 then { total := 0, users := [] }
  else (values.drop 1).foldl processRow { total := 0, users := [] }

/-- Sum of the per-user buckets of a month-data dict. -/
def sumUsers (users : List (String × ℚ)) : ℚ :=
  (users.map Prod.snd).sum

/-- Outcome of the change computation of the `compare_` callback: either a
numeric percent delta or the textual no-comparison report. -/
inductive CompareResult where
  | pctChange (p : ℚ)
  | noComparison
deriving DecidableEq, Repr

/-- The change computation of the `compare_` branch of
`ExpenseBot.button_handler`: when `last_data['total'] > 0` the percent delta
`(current - last) / last * 100` is produced; otherwise the handler reports
"No expenses in last month for comparison" and performs no division. -/
def compareMonths (currentValues lastValues : List (List String)) : CompareResult :=
  let cur := getMonthData currentValues
  let last := getMonthData lastValues
  if 0 < last.total then
    CompareResult.pctChange ((cur.total - last.total) / last.total * 100)
  else CompareResult.noComparison

/-! ## Helper lemmas -/

/-- Helper: `List.lookup` passes over a prefix none of whose keys match. -/
theorem lookup_append_right (l l2 : List (String × String)) (k : String)
    (h : ∀ kv ∈ l, kv.1 ≠ k) :
    List.lookup k (l ++ l2) = List.lookup k l2 := by
  induction l with
  | nil => rfl
  | cons kv rest ih =>
    obtain ⟨k', v'⟩ := kv
    have hk : (k == k') = false := by
      have hne := h (k', v') (List.mem_cons_self _ _)
      exact beq_eq_false_iff_ne.mpr (fun e => hne e.symm)
    simp only [List.cons_append, List.lookup, hk]
    exact ih (fun x hx => h x (List.mem_cons_of_mem _ hx))

/-- Helper: `List.find?` passes over a prefix on which the predicate fails. -/
theorem find?_append_right {α : Type} (p : α → Bool) (l l2 : List α)
    (h : ∀ x ∈ l, p x = false) :
    List.find? p (l ++ l2) = List.find? p l2 := by
  induction l with
  | nil => rfl
  | cons x rest ih =>
    rw [List.cons_append, List.find?_cons_of_neg]
    · exact ih (fun y hy => h y (List.mem_cons_of_mem _ hy))
    · simp [h x (List.mem_cons_self _ _)]

/-- Helper: a dict write of a fresh key appends the binding at the end. -/
theorem dictSet_append (l : List (String × String)) (k v : String)
    (h : ∀ kv ∈ l, kv.1 ≠ k) :
    dictSet l k v = l ++ [(k, v)] := by
  induction l with
  | nil => rfl
  | cons kv rest ih =>
    obtain ⟨k', v'⟩ := kv
    have hk : (k' == k) = false :=
      beq_eq_false_iff_ne.mpr (h (k', v') (List.mem_cons_self _ _))
    simp only [dictSet, hk, Bool.false_eq_true, if_false, List.cons_append,
      List.cons.injEq, true_and]
    exact ih (fun x hx => h x (List.mem_cons_of_mem _ hx))

/-! ## Claim C1: entry parsing -/

/-- C1, counterexample: on the message `"50 milk shake, cold"` the parser of
the source yields description `"milk"` (the second whitespace token) and
details `"shake, cold"`, whereas the claim's comma-based contract (the
spec-modelled `specEntryParse`) demands description `"milk shake"` and details
`" cold"`; the two disagree. -/
theorem c1_counterexample :
    parseEntry "50 milk shake, cold" = Except.ok (50, "milk", "shake, cold") ∧
    specEntryParse "50 milk shake, cold" = some (50, "milk shake", " cold") ∧
    ("milk" : String) ≠ "milk shake" := by
  refine ⟨rfl, rfl, by decide⟩

/-- C1 (amended): for every message whose whitespace split is
`tok0 :: tok1 :: rest` with `tok0` parsing as a float, the parser yields the
amount equal to the numeric value of `tok0`, the description equal to the
second whitespace token alone, and the details equal to the remaining tokens
joined by single spaces (empty if there are none); commas receive no special
treatment. -/
theorem c1_amended_parse (text tok0 tok1 : String) (rest : List String) (a : ℚ)
    (hsplit : pySplit text = tok0 :: tok1 :: rest)
    (hfloat : pyFloat tok0 = some a) :
    parseEntry text = Except.ok (a, tok1, String.intercalate " " rest) := by
  simp only [parseEntry, hsplit, hfloat]
  cases rest with
  | nil => rfl
  | cons h t => simp

/-- C1 witness: the amended parser contract evaluated on
`"50 milk shake, cold"`. -/
theorem c1_amended_parse_witness :
    parseEntry "50 milk shake, cold" = Except.ok (50, "milk", "shake, cold") := by
  have h := c1_amended_parse "50 milk shake, cold" "50" "milk" ["shake,", "cold"]
    50 (by decide) (by decide)
  simpa using h

/-! ## Claim C2: invalid amounts -/

/-- C2, counterexample: `"-5"` does not parse as a non-negative decimal, yet
handling `"-5 milk"` (with `"milk"` a known mapping) raises no format error
and appends a ledger row with the negative amount: the source checks only that
Python `float` accepts the token, never that the value is non-negative. -/
theorem c2_counterexample :
    nonNegDecimal "-5" = false ∧
    handleExpense [("milk", "Groceries")] "12/10/2025" "alice" "-5 milk" =
      ExpenseResult.added
        [Cell.str "12/10/2025", Cell.num (-5), Cell.str "milk",
         Cell.str "Groceries", Cell.str "alice", Cell.str ""] ∧
    writesOf
      (handleExpense [("milk", "Groceries")] "12/10/2025" "alice" "-5 milk") ≠ [] := by
  refine ⟨rfl, rfl, by decide⟩

/-- C2 (amended): for every message whose first whitespace token fails Python
`float` parsing, handling the message signals the invalid-amount error and no
ledger row is appended. -/
theorem c2_amended_invalid_amount (cats : List (String × String))
    (date user text tok0 : String) (ts : List String)
    (hsplit : pySplit text = tok0 :: ts) (hfail : pyFloat tok0 = none) :
    handleExpense cats date user text = ExpenseResult.invalidAmount ∧
    writesOf (handleExpense cats date user text) = [] := by
  have hp : parseEntry text = Except.error FormatErr.valueError := by
    simp only [parseEntry, hsplit, hfail]
  exact ⟨by simp [handleExpense, hp], by simp [handleExpense, hp, writesOf]⟩

/-- C2 witness: the amended contract evaluated on `"abc 5"`. -/
theorem c2_amended_invalid_amount_witness :
    handleExpense [] "12/10/2025" "alice" "abc 5" = ExpenseResult.invalidAmount ∧
    writesOf (handleExpense [] "12/10/2025" "alice" "abc 5") = [] :=
  c2_amended_invalid_amount [] "12/10/2025" "alice" "abc 5" "abc" ["5"]
    (by decide) (by decide)

/-! ## Claim C5: startup load failure -/

/-- C5, counterexample: `CategoryService._load_categories` (the loader the
modular entry point `main.py` wires in) catches the failing backend read and
returns an empty dict, producing a usable resolver with an empty mapping
instead of propagating the error. -/
theorem c5_counterexample :
    loadCategoriesService (Except.error "read failed") = [] ∧
    get_category (loadCategoriesService (Except.error "read failed")) "milk" = none :=
  ⟨rfl, rfl⟩

/-- C5 (amended): for every backing-read failure, `ExpenseBot._load_categories`
re-raises it (the error propagates out of startup), while
`CategoryService._load_categories` swallows it and yields the empty mapping,
so the modular process keeps serving with an empty resolver. -/
theorem c5_amended_load (e : String) :
    loadCategoriesBot (Except.error e) = Except.error e ∧
    loadCategoriesService (Except.error e) = [] :=
  ⟨rfl, rfl⟩

/-! ## Claim C3: resolution order of the category lookup -/

/-- C3: for every mapping state and description, `get_category` lower-cases
the description and (i) returns the exact dict match when the lowered
description is a key, (ii) otherwise returns the category of the first key in
insertion order that occurs as a substring of the lowered description, and
(iii) returns `none` when no key matches either way. -/
theorem c3_resolve_order (cats : List (String × String)) (description : String) :
    (∀ c, List.lookup (pyLower description) cats = some c →
      get_category cats description = some c) ∧
    (∀ pre k c post, cats = pre ++ (k, c) :: post →
      List.lookup (pyLower description) cats = none →
      (∀ kv ∈ pre, isSub kv.1 (pyLower description) = false) →
      isSub k (pyLower description) = true →
      get_category cats description = some c) ∧
    (List.lookup (pyLower description) cats = none →
      (∀ kv ∈ cats, isSub kv.1 (pyLower description) = false) →
      get_category cats description = none) := by
  refine ⟨?_, ?_, ?_⟩
  · intro c hc
    simp [get_category, hc]
  · intro pre k c post hcats hnone hpre hk
    subst hcats
    simp only [get_category, hnone]
    rw [find?_append_right _ pre _ (fun kv hkv => hpre kv hkv)]
    have hcons : List.find? (fun kv : String × String => isSub kv.1 (pyLower description))
        ((k, c) :: post) = some (k, c) :=
      List.find?_cons_of_pos _ (by simpa using hk)
    rw [hcons]
    rfl
  · intro hnone hall
    have hfind : List.find? (fun kv => isSub kv.1 (pyLower description)) cats = none :=
      List.find?_eq_none.mpr (fun x hx => by simp [hall x hx])
    simp [get_category, hnone, hfind]

/-- C3 witness: the substring branch of the resolution order evaluated on the
mapping `[tea ↦ Drinks, milk ↦ Groceries]` and description `"Milk cartons"`. -/
theorem c3_resolve_order_witness :
    get_category [("tea", "Drinks"), ("milk", "Groceries")] "Milk cartons" =
      some "Groceries" :=
  (c3_resolve_order [("tea", "Drinks"), ("milk", "Groceries")] "Milk cartons").2.1
    [("tea", "Drinks")] "milk" "Groceries" [] rfl (by decide) (by decide) (by decide)

/-! ## Claim C4: teach, then resolve exactly and by substring -/

/-- C4: after one `add_category_mapping` call recording milk ↦ Groceries on a
cache none of whose keys matches `"2 milk cartons"` as a substring (so none
matches `"milk"` either), the persisted table gained exactly the row
`["milk", "Groceries"]`, resolving `"milk"` hits the exact match and resolving
`"2 milk cartons"` hits the substring match — both against the in-memory cache
that the same operation updated, with no reload. -/
theorem c4_teach_then_resolve (persisted : List (List String))
    (cache : List (String × String))
    (h : ∀ kv ∈ cache, isSub kv.1 "2 milk cartons" = false) :
    (add_category_mapping ⟨persisted, cache⟩ "milk" "Groceries").persisted =
      persisted ++ [["milk", "Groceries"]] ∧
    get_category (add_category_mapping ⟨persisted, cache⟩ "milk" "Groceries").cache
      "milk" = some "Groceries" ∧
    get_category (add_category_mapping ⟨persisted, cache⟩ "milk" "Groceries").cache
      "2 milk cartons" = some "Groceries" := by
  have hlmilk : pyLower "milk" = "milk" := by decide
  have hne_milk : ∀ kv ∈ cache, kv.1 ≠ "milk" := by
    intro kv hkv e
    have hfalse := h kv hkv
    rw [e] at hfalse
    exact absurd hfalse (by decide)
  have hcache :
      (add_category_mapping ⟨persisted, cache⟩ "milk" "Groceries").cache =
        cache ++ [("milk", "Groceries")] := by
    simp only [add_category_mapping, hlmilk]
    exact dictSet_append cache "milk" "Groceries" hne_milk
  refine ⟨by simp [add_category_mapping, hlmilk], ?_, ?_⟩
  · rw [hcache]
    simp only [get_category, hlmilk]
    rw [lookup_append_right cache _ "milk" hne_milk]
    rfl
  · rw [hcache]
    have hllong : pyLower "2 milk cartons" = "2 milk cartons" := by decide
    have hne_long : ∀ kv ∈ cache, kv.1 ≠ "2 milk cartons" := by
      intro kv hkv e
      have hfalse := h kv hkv
      rw [e] at hfalse
      exact absurd hfalse (by decide)
    simp only [get_category, hllong]
    rw [lookup_append_right cache _ "2 milk cartons" hne_long]
    rw [find?_append_right _ cache _ (fun kv hkv => h kv hkv)]
    rfl

/-- C4 witness: the teach-then-resolve pair evaluated from the cache
`[tea ↦ Drinks]`. -/
theorem c4_teach_then_resolve_witness :
    (add_category_mapping ⟨[], [("tea", "Drinks")]⟩ "milk" "Groceries").persisted =
      [["milk", "Groceries"]] ∧
    get_category (add_category_mapping ⟨[], [("tea", "Drinks")]⟩ "milk" "Groceries").cache
      "milk" = some "Groceries" ∧
    get_category (add_category_mapping ⟨[], [("tea", "Drinks")]⟩ "milk" "Groceries").cache
      "2 milk cartons" = some "Groceries" :=
  c4_teach_then_resolve [] [("tea", "Drinks")] (by decide)

/-! ## Claim C6: sheet provisioning -/

/-- C6, evaluation at the failing input: provisioning the monthly sheet
`"2025-10"` on a spreadsheet that does not list it creates the sheet, but the
header update pushes the six header values into the five-column range `A1:E1`,
which the backend rejects, and the routine re-raises: the call errors and the
created sheet holds zero header rows.  A second call sees the title and
returns normally without ever supplying the header, so after two calls there
is exactly one sheet with the key, containing no header row at all rather than
exactly one.  The yearly investment routine, whose seven header values fit its
seven-column range `A1:G1`, provisions the sheet with exactly one header row
and is idempotent, exactly as the claim describes. -/
theorem c6_eval_monthly_header_mismatch :
    monthlyHeaders.length = 6 ∧
    (ensureMonthlySheetExists [] "2025-10").2 = Except.error "exceeds the range" ∧
    (ensureMonthlySheetExists [] "2025-10").1 =
      [{ title := "2025-10", rows := [] }] ∧
    countTitled (ensureMonthlySheetExists [] "2025-10").1 "2025-10" = 1 ∧
    ensureMonthlySheetExists (ensureMonthlySheetExists [] "2025-10").1 "2025-10" =
      ([{ title := "2025-10", rows := [] }], Except.ok ()) ∧
    ensureInvestmentSheetsExist [] 2025 =
      ([{ title := "2025 Overview", rows := [investmentHeaders] }], Except.ok ()) ∧
    ensureInvestmentSheetsExist
        [{ title := "2025 Overview", rows := [investmentHeaders] }] 2025 =
      ([{ title := "2025 Overview", rows := [investmentHeaders] }], Except.ok ()) := by
  refine ⟨rfl, rfl, rfl, rfl, rfl, rfl, rfl⟩

/-! ## Claim C7: row update frame property -/

/-- Helper: a positional write does not disturb other positions. -/
theorem nth?_setN_ne {α : Type} (l : List α) (n m : ℕ) (v : α) (h : n ≠ m) :
    nth? (setN l n v) m = nth? l m := by
  induction l generalizing n m with
  | nil => rfl
  | cons x xs ih =>
    cases n with
    | zero =>
      cases m with
      | zero => exact absurd rfl h
      | succ m' => rfl
    | succ n' =>
      cases m with
      | zero => rfl
      | succ m' => exact ih n' m' (fun e => h (by rw [e]))

/-- Helper: an in-range positional write is observed at its position. -/
theorem nth?_setN_self {α : Type} (l : List α) (n : ℕ) (v : α)
    (h : n < l.length) :
    nth? (setN l n v) n = some v := by
  induction l generalizing n with
  | nil => exact absurd h (by simp)
  | cons x xs ih =>
    cases n with
    | zero => rfl
    | succ n' => exact ih n' (Nat.lt_of_succ_lt_succ h)

/-- Helper: positional writes preserve length. -/
theorem setN_length {α : Type} (l : List α) (n : ℕ) (v : α) :
    (setN l n v).length = l.length := by
  induction l generalizing n with
  | nil => rfl
  | cons x xs ih =>
    cases n with
    | zero => rfl
    | succ n' => simp [setN, ih n']

/-- Helper: an out-of-range positional write is a no-op. -/
theorem setN_oob {α : Type} (l : List α) (n : ℕ) (v : α)
    (h : l.length ≤ n) :
    setN l n v = l := by
  induction l generalizing n with
  | nil => rfl
  | cons x xs ih =>
    cases n with
    | zero => exact absurd h (by simp)
    | succ n' => simp [setN, ih n' (Nat.le_of_succ_le_succ h)]

/-- Helper: positional reads fail exactly beyond the length. -/
theorem nth?_eq_none_iff {α : Type} (l : List α) (n : ℕ) :
    nth? l n = none ↔ l.length ≤ n := by
  induction l generalizing n with
  | nil => simp [nth?]
  | cons x xs ih =>
    cases n with
    | zero => simp [nth?]
    | succ n' => simpa [nth?, Nat.succ_le_succ_iff] using ih n'

/-- C7: the row update of a confirmed edit overwrites only the contiguous
amount/description/category range (columns 1–3) of the targeted row.  Every
cell outside that range — every other row, and columns 0 and ≥ 4 of the edited
row — is unchanged; in particular the user column (index 4) of the edited row
always keeps its original value.  When the targeted row exists and is wide
enough, the three covered columns receive exactly the new amount, description
and category. -/
theorem c7_update_frame (sheet : List (List Cell)) (row : ℕ) (a : ℚ)
    (d c : String) :
    (∀ i j, i ≠ row ∨ (j ≠ 1 ∧ j ≠ 2 ∧ j ≠ 3) →
      cellAt (update_expense sheet row a d c) i j = cellAt sheet i j) ∧
    cellAt (update_expense sheet row a d c) row 4 = cellAt sheet row 4 ∧
    (∀ r, nth? sheet row = some r → 4 ≤ r.length →
      cellAt (update_expense sheet row a d c) row 1 = some (Cell.num a) ∧
      cellAt (update_expense sheet row a d c) row 2 = some (Cell.str d) ∧
      cellAt (update_expense sheet row a d c) row 3 = some (Cell.str c)) := by
  have hframe : ∀ i j, i ≠ row ∨ (j ≠ 1 ∧ j ≠ 2 ∧ j ≠ 3) →
      cellAt (update_expense sheet row a d c) i j = cellAt sheet i j := by
    intro i j hij
    rcases hij with hne | ⟨h1, h2, h3⟩
    · unfold cellAt update_expense
      rw [nth?_setN_ne _ _ _ _ (fun e => hne e.symm)]
    · cases hrow : nth? sheet row with
      | none =>
        have hlen := (nth?_eq_none_iff sheet row).mp hrow
        unfold cellAt update_expense
        rw [setN_oob _ _ _ hlen]
      | some r =>
        have hlt : row < sheet.length := by
          by_contra hge
          rw [(nth?_eq_none_iff sheet row).mpr (Nat.le_of_not_lt hge)] at hrow
          exact Option.noConfusion hrow
        rcases eq_or_ne i row with rfl | hne
        · unfold cellAt update_expense
          rw [nth?_setN_self _ _ _ hlt, hrow]
          show nth? (writeBCD r a d c) j = nth? r j
          unfold writeBCD
          rw [nth?_setN_ne _ _ _ _ (fun e => h3 e.symm),
            nth?_setN_ne _ _ _ _ (fun e => h2 e.symm),
            nth?_setN_ne _ _ _ _ (fun e => h1 e.symm)]
        · unfold cellAt update_expense
          rw [nth?_setN_ne _ _ _ _ (fun e => hne e.symm)]
  refine ⟨hframe, hframe row 4 (Or.inr (by decide)), ?_⟩
  intro r hrow hwide
  have hlt : row < sheet.length := by
    by_contra hge
    rw [(nth?_eq_none_iff sheet row).mpr (Nat.le_of_not_lt hge)] at hrow
    exact Option.noConfusion hrow
  have hbase : ∀ j, cellAt (update_expense sheet row a d c) row j =
      nth? (writeBCD r a d c) j := by
    intro j
    unfold cellAt update_expense
    rw [nth?_setN_self _ _ _ hlt, hrow]
    rfl
  have hl1 : (1 : ℕ) < r.length := by omega
  have hl2 : (2 : ℕ) < (setN r 1 (Cell.num a)).length := by rw [setN_length]; omega
  have hl3 : (3 : ℕ) <
      (setN (setN r 1 (Cell.num a)) 2 (Cell.str d)).length := by
    rw [setN_length, setN_length]; omega
  refine ⟨?_, ?_, ?_⟩
  · rw [hbase 1]
    unfold writeBCD
    rw [nth?_setN_ne _ _ _ _ (by decide), nth?_setN_ne _ _ _ _ (by decide),
      nth?_setN_self _ _ _ hl1]
  · rw [hbase 2]
    unfold writeBCD
    rw [nth?_setN_ne _ _ _ _ (by decide), nth?_setN_self _ _ _ hl2]
  · rw [hbase 3]
    unfold writeBCD
    rw [nth?_setN_self _ _ _ hl3]

/-- C7 witness: updating row 0 of a one-row sheet keeps date, user and details
and rewrites amount, description and category. -/
theorem c7_update_frame_witness :
    cellAt (update_expense
      [[Cell.str "1/10", Cell.num 1, Cell.str "milk", Cell.str "Groceries",
        Cell.str "bob", Cell.str "old"]] 0 7 "bread" "Bakery") 0 4 =
      some (Cell.str "bob") ∧
    cellAt (update_expense
      [[Cell.str "1/10", Cell.num 1, Cell.str "milk", Cell.str "Groceries",
        Cell.str "bob", Cell.str "old"]] 0 7 "bread" "Bakery") 0 1 =
      some (Cell.num 7) := by
  have h := c7_update_frame
    [[Cell.str "1/10", Cell.num 1, Cell.str "milk", Cell.str "Groceries",
      Cell.str "bob", Cell.str "old"]] 0 7 "bread" "Bakery"
  refine ⟨?_, ?_⟩
  · rw [h.2.1]; rfl
  · exact (h.2.2 [Cell.str "1/10", Cell.num 1, Cell.str "milk",
      Cell.str "Groceries", Cell.str "bob", Cell.str "old"] rfl (by decide)).1

/-! ## Claim C9: relative month resolution -/

/-- C9, evaluation at the failing input: with the current date 2025-10-12,
`_get_relative_month 0` (as invoked by the `summary_last3` handler) performs
one backward step, returning `"2025-09"` — the previous month, identical to
`_get_relative_month 1` — where the claim demands zero steps and the current
month `"2025-10"`. -/
theorem c9_eval_months_back_zero :
    getRelativeMonth { year := 2025, month := 10, day := 12 } 0 = "2025-09" ∧
    getRelativeMonth { year := 2025, month := 10, day := 12 } 1 = "2025-09" ∧
    "2025-09" ≠ "2025-10" := by
  refine ⟨rfl, rfl, by decide⟩

/-! ## Claim C8: period comparison and division by zero -/

/-- C8, counterexample: a last-month sheet holding the single amount `-5`
gives a nonzero total for which the claim demands a numeric percent delta, yet
the comparison (whose guard is `total > 0`, not `total ≠ 0`) reports the
no-comparison signal. -/
theorem c8_counterexample :
    (getMonthData [["Date", "Amount"], ["x", "-5"]]).total = -5 ∧
    ¬ ((getMonthData [["Date", "Amount"], ["x", "-5"]]).total ≠ 0 →
      ∃ p, compareMonths [] [["Date", "Amount"], ["x", "-5"]] =
        CompareResult.pctChange p) := by
  have heval : (getMonthData [["Date", "Amount"], ["x", "-5"]]).total = -5 := by
    show (0 : ℚ) + -5 = -5
    norm_num
  refine ⟨heval, ?_⟩
  intro hclaim
  obtain ⟨p, hp⟩ := hclaim (by rw [heval]; norm_num)
  have hno : compareMonths [] [["Date", "Amount"], ["x", "-5"]] =
      CompareResult.noComparison := by
    simp only [compareMonths]
    rw [if_neg]
    rw [heval]
    norm_num
  rw [hno] at hp
  exact CompareResult.noConfusion hp

/-- C8 (amended): the comparison never divides: when the second period's total
is strictly positive it reports the numeric percent delta
`(totalA - totalB) / totalB * 100`; when the total is zero — or negative — it
reports the explicit no-comparison signal and performs no division. -/
theorem c8_amended_compare (currentValues lastValues : List (List String)) :
    (0 < (getMonthData lastValues).total →
      compareMonths currentValues lastValues = CompareResult.pctChange
        (((getMonthData currentValues).total - (getMonthData lastValues).total) /
          (getMonthData lastValues).total * 100)) ∧
    ((getMonthData lastValues).total ≤ 0 →
      compareMonths currentValues lastValues = CompareResult.noComparison) := by
  constructor
  · intro h
    simp [compareMonths, h]
  · intro h
    simp only [compareMonths]
    rw [if_neg (not_lt.mpr h)]

/-- C8 witness: both branches of the amended comparison contract, evaluated on
small sheets with totals 10 and 5, and on an empty last month. -/
theorem c8_amended_compare_witness :
    compareMonths [["h"], ["x", "10"]] [["h"], ["y", "5"]] =
      CompareResult.pctChange 100 ∧
    compareMonths [["h"], ["x", "10"]] [["h"]] = CompareResult.noComparison := by
  have h10 : (getMonthData [["h"], ["x", "10"]]).total = 10 := by
    show (0 : ℚ) + 10 = 10
    norm_num
  have h5 : (getMonthData [["h"], ["y", "5"]]).total = 5 := by
    show (0 : ℚ) + 5 = 5
    norm_num
  constructor
  · rw [(c8_amended_compare [["h"], ["x", "10"]] [["h"], ["y", "5"]]).1
      (by rw [h5]; norm_num)]
    rw [h10, h5]
    norm_num
  · refine (c8_amended_compare [["h"], ["x", "10"]] [["h"]]).2 ?_
    show (0 : ℚ) ≤ 0
    norm_num

/-! ## Claim C10: month aggregation invariant -/

/-- Helper: bumping a user bucket raises the bucket sum by the amount. -/
theorem sumUsers_bump (l : List (String × ℚ)) (u : String) (a : ℚ) :
    sumUsers (bump l u a) = sumUsers l + a := by
  induction l with
  | nil => simp [bump, sumUsers]
  | cons kv rest ih =>
    obtain ⟨k, v⟩ := kv
    by_cases h : (k == u) = true
    · simp [bump, h, sumUsers]
      ring
    · rw [bump, if_neg h]
      simp only [sumUsers, List.map_cons, List.sum_cons] at ih ⊢
      rw [ih]
      ring

/-- Helper: each loop step of `_get_month_data` preserves the equality of the
running total with the sum of the per-user buckets. -/
theorem foldl_processRow_inv (rows : List (List String)) :
    ∀ md : MonthData, md.total = sumUsers md.users →
      (rows.foldl processRow md).total = sumUsers (rows.foldl processRow md).users := by
  induction rows with
  | nil => intro md h; exact h
  | cons row rest ih =>
    intro md h
    apply ih
    unfold processRow
    by_cases hlen : 2 ≤ row.length
    · rw [if_pos hlen]
      cases hpf : pyFloat (row.getD 1 "") with
      | none => exact h
      | some a => simp [sumUsers_bump, h]
    · rw [if_neg hlen]
      exact h

/-- C10: for every sheet contents, the total returned by `_get_month_data`
equals the sum of the per-user totals of the returned user map; each row whose
amount cell parses contributes its amount to the total and to exactly the
bucket of its user column (`"Unknown"` when that column is missing), and a row
whose amount fails to parse, or is too short to carry one, contributes to
neither. -/
theorem c10_month_total_inv :
    (∀ values : List (List String),
      (getMonthData values).total = sumUsers (getMonthData values).users) ∧
    (∀ (md : MonthData) (row : List String) (a : ℚ), 2 ≤ row.length →
      pyFloat (row.getD 1 "") = some a →
      processRow md row =
        { total := md.total + a
          users := bump md.users
            (if 4 < row.length then row.getD 4 "" else "Unknown") a }) ∧
    (∀ (md : MonthData) (row : List String), 2 ≤ row.length →
      pyFloat (row.getD 1 "") = none → processRow md row = md) ∧
    (∀ (md : MonthData) (row : List String), row.length < 2 →
      processRow md row = md) := by
  refine ⟨?_, ?_, ?_, ?_⟩
  · intro values
    unfold getMonthData
    by_cases h : values.length ≤ 1
    · rw [if_pos h]
      rfl
    · rw [if_neg h]
      exact foldl_processRow_inv (values.drop 1) _ rfl
  · intro md row a hlen hpf
    unfold processRow
    rw [if_pos hlen, hpf]
  · intro md row hlen hpf
    unfold processRow
    rw [if_pos hlen, hpf]
  · intro md row hlen
    unfold processRow
    rw [if_neg (by omega)]

/-- C10 witness: the invariant and the three row cases evaluated on a concrete
sheet holding a parseable row, an unparseable row, and a short row. -/
theorem c10_month_total_inv_witness :
    (getMonthData [["h"], ["1/1", "10", "d", "c", "alice"], ["1/1", "oops"],
      ["solo"]]).total =
      sumUsers (getMonthData [["h"], ["1/1", "10", "d", "c", "alice"],
        ["1/1", "oops"], ["solo"]]).users ∧
    processRow { total := 0, users := [] } ["1/1", "10", "d", "c", "alice"] =
      { total := 10, users := [("alice", 10)] } ∧
    processRow { total := 0, users := [] } ["1/1", "oops"] =
      { total := 0, users := [] } ∧
    processRow { total := 0, users := [] } ["solo"] =
      { total := 0, users := [] } := by
  refine ⟨c10_month_total_inv.1 _, ?_, ?_, ?_⟩
  · rw [c10_month_total_inv.2.1 { total := 0, users := [] }
      ["1/1", "10", "d", "c", "alice"] 10 (by decide) (by decide)]
    show ({ total := (0 : ℚ) + 10, users := [("alice", (10 : ℚ))] } : MonthData) = _
    simp only [MonthData.mk.injEq]
    exact ⟨by norm_num, trivial⟩
  · exact c10_month_total_inv.2.2.1 { total := 0, users := [] } ["1/1", "oops"]
      (by decide) (by decide)
  · exact c10_month_total_inv.2.2.2 { total := 0, users := [] } ["solo"]
      (by decide)

end ExpenseBot
